import Mathlib

/-!
Shallow embedding of `src/lib/selector/fast-auth-wallet.ts` from
`evgenykuzyakov/near-discovery`.

The TypeScript module wires a FastAuth wallet into the near-wallet-selector
framework.  Its externally observable behaviour is captured here by pure
functions over explicit environment records: each asynchronous collaborator
(signer, RPC provider, relay HTTP endpoint, authentication handshake) becomes
a field of an environment structure, and each async method becomes a total
function returning `Except` for code paths that may throw.
-/

namespace FastAuthWallet

/-- A wallet-selector action as received by the module (opaque payload,
passed through `createAction` unchanged). -/
structure RawAction where
  payload : String
deriving DecidableEq

/-- A near-api-js action as produced by `createAction` (opaque payload). -/
structure Action where
  payload : String
deriving DecidableEq

/-- The `access_key` field of an on-chain access-key view: carries the
replay-protection nonce. -/
structure AccessKeyInner where
  nonce : Nat
deriving DecidableEq

/-- An on-chain access-key view `{public_key, access_key: {nonce}}` as
returned by `account.accessKeyForTransaction`. -/
structure AccessKeyView where
  public_key : String
  access_key : AccessKeyInner
deriving DecidableEq

/-- An intended transaction `{receiverId, actions, signerId?}` given to the
wallet by its caller. -/
structure IntendedTx where
  receiverId : String
  actions : List RawAction
  signerId : Option String
deriving DecidableEq

/-- A fully assembled transaction as built by
`nearAPI.transactions.createTransaction(signerId, publicKey, receiverId,
nonce, actions, blockHash)`. -/
structure AssembledTx where
  signerId : String
  publicKey : String
  receiverId : String
  nonce : Nat
  actions : List Action
  blockHash : List Nat
deriving DecidableEq

/-- Environment for `transformTransactions`: the wallet account, the local
signer key, and the RPC collaborators it queries. `block` is indexed by the
position of the transaction in the batch, since the provider is queried once
per mapped transaction. -/
structure TxEnv where
  accountId : String
  networkId : String
  localKey : Option String
  createAction : RawAction → Action
  accessKeyForTransaction : String → List Action → Option String → Option AccessKeyView
  block : Nat → String
  baseDecode : String → List Nat
  publicKeyFrom : String → String

/-- The body of the arrow function mapped over the batch inside
`transformTransactions`: resolves the access key for the transaction,
throws a receiver-identifying error when none matches, and otherwise builds
the assembled transaction with nonce `accessKey.access_key.nonce + index + 1`
bound to a freshly fetched final block hash. -/
def transformOne (env : TxEnv) (index : Nat) (transaction : IntendedTx) :
    Except String AssembledTx :=
  let actions := transaction.actions.map env.createAction
  match env.accessKeyForTransaction transaction.receiverId actions env.localKey with
  | none =>
      Except.error
        ("Failed to find matching key for transaction sent to " ++ transaction.receiverId)
  | some accessKey =>
      let blockHash := env.block index
      Except.ok
        { signerId := env.accountId
          publicKey := env.publicKeyFrom accessKey.public_key
          receiverId := transaction.receiverId
          nonce := accessKey.access_key.nonce + index + 1
          actions := actions
          blockHash := env.baseDecode blockHash }

/-- `Promise.all(transactions.map(...))` over the indexed mapper: collects
every assembled transaction, or fails with the first (by index) rejection. -/
def transformTransactionsAux (env : TxEnv) :
    Nat → List IntendedTx → Except String (List AssembledTx)
  | _, [] => Except.ok []
  | index, transaction :: rest =>
      match transformOne env index transaction with
      | Except.error e => Except.error e
      | Except.ok a =>
          match transformTransactionsAux env (index + 1) rest with
          | Except.error e => Except.error e
          | Except.ok as => Except.ok (a :: as)

/-- `transformTransactions`: maps the indexed assembler over the batch
starting at index 0. -/
def transformTransactions (env : TxEnv) (transactions : List IntendedTx) :
    Except String (List AssembledTx) :=
  transformTransactionsAux env 0 transactions

/-- The argument record passed to `account.signedDelegate({actions,
blockHeightTtl, receiverId})`. -/
structure SignedDelegateParams where
  actions : List Action
  blockHeightTtl : Nat
  receiverId : String
deriving DecidableEq

/-- The signed delegate returned by near-api-js (opaque signed payload). -/
structure SignedDelegate where
  data : String
deriving DecidableEq

/-- The HTTP request issued by `fetch(relayerUrl, {...})`. -/
structure RelayRequest where
  url : String
  method : String
  mode : String
  body : String
  contentType : String
deriving DecidableEq

/-- An HTTP response as delivered by `fetch` when the network call itself
succeeds (any status, any body: the code never inspects it). -/
structure HttpResponse where
  status : Nat
  body : String
deriving DecidableEq

/-- How a transaction left the wallet: through the delegated relay path, or
by direct broadcast of an assembled transaction.  The source builds only the
relayed form; `direct` exists so absence of a direct-broadcast branch is a
statement, not a tautology. -/
inductive Dispatch where
  | relayed (params : SignedDelegateParams) (request : RelayRequest)
  | direct (transaction : AssembledTx)
deriving DecidableEq

/-- `JSON.stringify` of `Array.from(bytes)`: the decimal numbers joined by
commas inside square brackets. -/
def jsonStringifyNats (bytes : List Nat) : String :=
  "[" ++ String.intercalate "," (bytes.map toString) ++ "]"

/-- Environment for `signAndSendTransaction`: the active wallet account's
delegate signer, the canonical delegate encoder, the configured relay URL and
the network-level behaviour of `fetch` on the relay request. -/
structure SendEnv where
  createAction : RawAction → Action
  signedDelegate : SignedDelegateParams → SignedDelegate
  encodeSignedDelegate : SignedDelegate → List Nat
  relayerUrl : String
  fetch : RelayRequest → Except String HttpResponse

/-- The delegate parameters and relay request that
`signAndSendTransaction` constructs for the given receiver and actions:
`signedDelegate({actions: actions.map(createAction), blockHeightTtl: 60,
receiverId})`, then a cors POST of the JSON byte array to `relayerUrl`. -/
def buildRelayRequest (env : SendEnv) (receiverId : String)
    (actions : List RawAction) : SignedDelegateParams × RelayRequest :=
  let params : SignedDelegateParams :=
    { actions := actions.map env.createAction
      blockHeightTtl := 60
      receiverId := receiverId }
  let signed := env.signedDelegate params
  ( params
  , { url := env.relayerUrl
      method := "POST"
      mode := "cors"
      body := jsonStringifyNats (env.encodeSignedDelegate signed)
      contentType := "application/json" } )

/-- `signAndSendTransaction({receiverId, actions, signerId})`: signs a
delegate over the created actions with a 60-block TTL, POSTs its encoding to
the relay, and returns without reading the response; the result is an error
exactly when the `fetch` call itself fails.  `signerId` is destructured by
the source but never used. -/
def signAndSendTransaction (env : SendEnv) (signerId : Option String)
    (receiverId : String) (actions : List RawAction) :
    Dispatch × Except String Unit :=
  let pr := buildRelayRequest env receiverId actions
  match env.fetch pr.2 with
  | Except.ok _ => (Dispatch.relayed pr.1 pr.2, Except.ok ())
  | Except.error e => (Dispatch.relayed pr.1 pr.2, Except.error e)

/-- `signAndSendTransactions({transactions})`: a `for … of` loop awaiting
`this.signAndSendTransaction` on each element in order.  Returns the
dispatches actually attempted and the overall result: the loop stops at the
first failing transaction and rethrows its error. -/
def signAndSendTransactions (env : SendEnv) :
    List IntendedTx → List Dispatch × Except String Unit
  | [] => ([], Except.ok ())
  | transaction :: rest =>
      let dr := signAndSendTransaction env transaction.signerId
        transaction.receiverId transaction.actions
      match dr.2 with
      | Except.ok _ =>
          let tail := signAndSendTransactions env rest
          (dr.1 :: tail.1, tail.2)
      | Except.error e => ([dr.1], Except.error e)

/-- An account record `{accountId, publicKey}` as returned to the
wallet-selector framework. -/
structure Account where
  accountId : String
  publicKey : String
deriving DecidableEq

/-- The connected wallet account object returned by `wallet.account()`. -/
structure WalletAccount where
  accountId : String
deriving DecidableEq

/-- Session-facing environment: the wallet connection state and the local
signer.  `getAccountId` returns the empty string when signed out (the JS
falsy case); `getPublicKey` returns `none` when the signer holds no key for
the account on the network. -/
structure SessionEnv where
  getAccountId : String
  account : Option WalletAccount
  networkId : String
  getPublicKey : String → String → Option String

/-- `getAccounts()`: empty when `!accountId || !account`; otherwise a single
record whose `publicKey` is the signer's key stringified, or `""` when the
signer produced none. -/
def getAccounts (env : SessionEnv) : List Account :=
  let accountId := env.getAccountId
  match env.account with
  | none => []
  | some account =>
      if accountId = "" then []
      else
        match env.getPublicKey account.accountId env.networkId with
        | some publicKey => [{ accountId := accountId, publicKey := publicKey }]
        | none => [{ accountId := accountId, publicKey := "" }]

/-- The parameter record accepted by `signIn` and forwarded verbatim to
`wallet.requestSignIn`. -/
structure SignInParams where
  contractId : Option String
  methodNames : List String
  successUrl : Option String
  failureUrl : Option String
  email : Option String
  accountId : Option String
  isRecovery : Bool
deriving DecidableEq

/-- `signIn(params)`: returns the existing accounts unchanged when some are
already present; otherwise runs the external `requestSignIn` handshake
(modelled as a state transformer on the session environment, since it
populates the key store) and re-derives the account list.  The boolean
records whether the handshake collaborator was invoked. -/
def signIn (env : SessionEnv) (requestSignIn : SignInParams → SessionEnv)
    (params : SignInParams) : List Account × Bool :=
  let existingAccounts := getAccounts env
  if existingAccounts.length ≠ 0 then (existingAccounts, false)
  else (getAccounts (requestSignIn params), true)

/-- The `metadata.name` wired by `setupFastAuthWallet`. -/
def fastAuthWalletMetadataName : String := "FastAuthWallet"

/-- `verifyOwner()`: unconditionally throws
`Method not supported by ${metadata.name}`; the session state in scope is
never consulted. -/
def verifyOwner (metadataName : String) (_env : SessionEnv) :
    Except String Unit :=
  Except.error ("Method not supported by " ++ metadataName)

/-- A wallet-selector network descriptor (only `networkId` is consulted). -/
structure Network where
  networkId : String
deriving DecidableEq

/-- `resolveWalletUrl(network, walletUrl?)`: an explicitly configured URL is
returned as-is; otherwise mainnet and testnet map to the default, and any
other network identifier throws `Invalid wallet url`. -/
def resolveWalletUrl (network : Network) (walletUrl : Option String) :
    Except String String :=
  match walletUrl with
  | some url => Except.ok url
  | none =>
      match network.networkId with
      | "mainnet" => Except.ok "http://localhost:3000"
      | "testnet" => Except.ok "http://localhost:3000"
      | _ => Except.error "Invalid wallet url"

instance decEqExcept {ε : Type _} {α : Type _} [DecidableEq ε] [DecidableEq α] :
    DecidableEq (Except ε α)
  | Except.ok a, Except.ok b =>
      if h : a = b then Decidable.isTrue (by rw [h])
      else Decidable.isFalse (fun hh => h (by injection hh))
  | Except.ok _, Except.error _ => Decidable.isFalse (fun hh => Except.noConfusion hh)
  | Except.error _, Except.ok _ => Decidable.isFalse (fun hh => Except.noConfusion hh)
  | Except.error d, Except.error e =>
      if h : d = e then Decidable.isTrue (by rw [h])
      else Decidable.isFalse (fun hh => h (by injection hh))

/-! ### Theorems -/

/-- Claim C8: for every session state, `verifyOwner` fails with a
"Method not supported" error naming the wallet implementation
(`FastAuthWallet`); since its result is always exactly this error, it never
succeeds, signed in or not. -/
theorem verifyOwner_always_unsupported (env : SessionEnv) :
    verifyOwner fastAuthWalletMetadataName env =
      Except.error ("Method not supported by " ++ fastAuthWalletMetadataName) :=
  rfl

/-- Claim C10: `signAndSendTransaction` is independent of its `signerId`
argument: two calls differing only in `signerId` construct the same dispatch
(same signed delegate, same relay request) and return the same result. -/
theorem signAndSendTransaction_ignores_signerId (env : SendEnv)
    (s1 s2 : Option String) (receiverId : String) (actions : List RawAction) :
    signAndSendTransaction env s1 receiverId actions =
      signAndSendTransaction env s2 receiverId actions :=
  rfl

/-- Claim C4: every call to `signAndSendTransaction` takes the
delegated-relay path: the dispatch is `relayed` with a signed delegate built
from the created actions and the given receiver with a fixed
`blockHeightTtl` of 60; no input produces a `direct` broadcast. -/
theorem signAndSendTransaction_always_relayed (env : SendEnv)
    (signerId : Option String) (receiverId : String)
    (actions : List RawAction) :
    (signAndSendTransaction env signerId receiverId actions).1 =
      Dispatch.relayed
        { actions := actions.map env.createAction
          blockHeightTtl := 60
          receiverId := receiverId }
        (buildRelayRequest env receiverId actions).2 := by
  unfold signAndSendTransaction
  cases hf : env.fetch (buildRelayRequest env receiverId actions).2 <;>
    simp only [hf] <;> rfl

/-- Claim C5: the relay request issued by `signAndSendTransaction` is an
HTTP POST to the configured relay URL whose body is the JSON array of the
canonical byte encoding of the signed delegate, with Content-Type
`application/json`; and the return value ignores the relay response: any
response at all (any status, any body) yields success, while a network-layer
`fetch` failure propagates as the error. -/
theorem signAndSendTransaction_relay_request (env : SendEnv)
    (signerId : Option String) (receiverId : String)
    (actions : List RawAction) :
    ((signAndSendTransaction env signerId receiverId actions).1 =
        Dispatch.relayed (buildRelayRequest env receiverId actions).1
          (buildRelayRequest env receiverId actions).2
      ∧ (buildRelayRequest env receiverId actions).2.method = "POST"
      ∧ (buildRelayRequest env receiverId actions).2.url = env.relayerUrl
      ∧ (buildRelayRequest env receiverId actions).2.contentType = "application/json"
      ∧ (buildRelayRequest env receiverId actions).2.body =
          jsonStringifyNats (env.encodeSignedDelegate
            (env.signedDelegate (buildRelayRequest env receiverId actions).1)))
    ∧ (∀ resp, env.fetch (buildRelayRequest env receiverId actions).2 = Except.ok resp →
        (signAndSendTransaction env signerId receiverId actions).2 = Except.ok ())
    ∧ (∀ e, env.fetch (buildRelayRequest env receiverId actions).2 = Except.error e →
        (signAndSendTransaction env signerId receiverId actions).2 = Except.error e) := by
  refine ⟨⟨?_, rfl, rfl, rfl, rfl⟩, ?_, ?_⟩
  · unfold signAndSendTransaction
    cases hf : env.fetch (buildRelayRequest env receiverId actions).2 <;>
      simp only [hf]
  · intro resp h
    unfold signAndSendTransaction
    simp only [h]
  · intro e h
    unfold signAndSendTransaction
    simp only [h]

/-- Concrete environment used to exercise the relay path: the relay answers
with an HTTP 500 rejection, which `signAndSendTransaction` cannot
distinguish from success. -/
def c5Env : SendEnv :=
  { createAction := fun r => { payload := r.payload }
    signedDelegate := fun p => { data := p.receiverId }
    encodeSignedDelegate := fun sd => [sd.data.length]
    relayerUrl := "https://relay.example"
    fetch := fun _ => Except.ok { status := 500, body := "rejected" } }

/-- Witness for C5: with a relay that answers HTTP 500, the call still
returns success. -/
theorem signAndSendTransaction_relay_request_witness :
    (signAndSendTransaction c5Env none "bob.near" [{ payload := "transfer" }]).2 =
      Except.ok () :=
  (signAndSendTransaction_relay_request c5Env none "bob.near"
      [{ payload := "transfer" }]).2.1
    { status := 500, body := "rejected" } rfl

/-- Claim C7: calling `signIn` while an account is already signed in returns
the existing account list and never invokes the `requestSignIn`
handshake. -/
theorem signIn_idempotent (env : SessionEnv)
    (requestSignIn : SignInParams → SessionEnv) (params : SignInParams)
    (h : getAccounts env ≠ []) :
    signIn env requestSignIn params = (getAccounts env, false) := by
  unfold signIn
  rw [if_pos]
  intro h0
  exact h (List.length_eq_zero.mp h0)

/-- A signed-in session with a resolvable key, used as concrete input. -/
def c7Env : SessionEnv :=
  { getAccountId := "alice.near"
    account := some { accountId := "alice.near" }
    networkId := "testnet"
    getPublicKey := fun _ _ => some "ed25519:AliceKey" }

/-- Witness for C7: a signed-in session short-circuits `signIn`. -/
theorem signIn_idempotent_witness :
    signIn c7Env (fun _ => c7Env)
        { contractId := none, methodNames := [], successUrl := none
          failureUrl := none, email := none, accountId := none
          isRecovery := false } =
      (getAccounts c7Env, false) :=
  signIn_idempotent c7Env (fun _ => c7Env) _ (by decide)

/-- Counterexample to C9 as stated: with an explicitly configured
`walletUrl`, resolution succeeds even for the unrecognized network
`betanet` instead of failing fatally. -/
theorem resolveWalletUrl_counterexample :
    resolveWalletUrl { networkId := "betanet" } (some "https://wallet.example") =
      Except.ok "https://wallet.example" :=
  rfl

/-- Claim C9 (amended): an explicitly configured `walletUrl` is returned
as-is for any network; when no `walletUrl` is configured, resolution fails
with `Invalid wallet url` for every network identifier outside
{"mainnet", "testnet"}. -/
theorem resolveWalletUrl_amended (network : Network) :
    (∀ url, resolveWalletUrl network (some url) = Except.ok url)
    ∧ (network.networkId ≠ "mainnet" → network.networkId ≠ "testnet" →
        resolveWalletUrl network none = Except.error "Invalid wallet url") := by
  refine ⟨fun url => rfl, fun h1 h2 => ?_⟩
  unfold resolveWalletUrl
  split
  · rename_i url heq; exact Option.noConfusion heq
  · split
    · rename_i heq; exact absurd heq h1
    · rename_i heq; exact absurd heq h2
    · rfl

/-- Witness for C9 (amended): with no configured URL, the `betanet` network
fails resolution. -/
theorem resolveWalletUrl_amended_witness :
    resolveWalletUrl { networkId := "betanet" } none =
      Except.error "Invalid wallet url" :=
  (resolveWalletUrl_amended { networkId := "betanet" }).2 (by decide) (by decide)

/-- A signed-in session whose signer holds no key for the account: the
`getPublicKey` lookup yields nothing. -/
def c6Env : SessionEnv :=
  { getAccountId := "alice.near"
    account := some { accountId := "alice.near" }
    networkId := "testnet"
    getPublicKey := fun _ _ => none }

/-- Counterexample to C6 as stated: when the signed-in account's signer
cannot produce a public key, `getAccounts` does not return the empty
sequence — it returns one record with an empty `publicKey` string. -/
theorem getAccounts_counterexample :
    c6Env.getPublicKey "alice.near" "testnet" = none
      ∧ getAccounts c6Env = [{ accountId := "alice.near", publicKey := "" }] :=
  ⟨rfl, rfl⟩

/-- Claim C6 (amended): `getAccounts` never throws; it returns the empty
sequence exactly when no account is signed in (empty account id or missing
account handle); when signed in it returns exactly one record
`{accountId, publicKey}`, where `publicKey` is the signer's key when one
resolves and the empty string when the signer cannot produce one. -/
theorem getAccounts_spec (env : SessionEnv) :
    ((env.getAccountId = "" ∨ env.account = none) → getAccounts env = [])
    ∧ ∀ acct, env.account = some acct → env.getAccountId ≠ "" →
        ((env.getPublicKey acct.accountId env.networkId = none →
            getAccounts env = [{ accountId := env.getAccountId, publicKey := "" }])
        ∧ ∀ pk, env.getPublicKey acct.accountId env.networkId = some pk →
            getAccounts env = [{ accountId := env.getAccountId, publicKey := pk }]) := by
  constructor
  · intro h
    unfold getAccounts
    rcases h with h | h
    · cases ha : env.account
      · rfl
      · simp [ha, h]
    · simp only [h]
  · intro acct ha hid
    constructor
    · intro hpk
      unfold getAccounts
      simp only [ha, hpk, if_neg hid]
    · intro pk hpk
      unfold getAccounts
      simp only [ha, hpk, if_neg hid]

/-- Witness for C6 (amended): the keyless signed-in session yields the
single record with an empty public key. -/
theorem getAccounts_spec_witness :
    getAccounts c6Env = [{ accountId := "alice.near", publicKey := "" }] :=
  ((getAccounts_spec c6Env).2 { accountId := "alice.near" } rfl
    (by decide)).1 rfl

/-- When every access-key lookup in the batch resolves to the same key, the
indexed assembler starting at `start` succeeds and assigns
`nonce = key nonce + (start + i) + 1` to the i-th output. -/
theorem transformTransactionsAux_uniform (env : TxEnv) (k : AccessKeyView) :
    ∀ (txs : List IntendedTx) (start : Nat),
      (∀ t ∈ txs,
        env.accessKeyForTransaction t.receiverId (t.actions.map env.createAction)
          env.localKey = some k) →
      ∃ out, transformTransactionsAux env start txs = Except.ok out
        ∧ out.length = txs.length
        ∧ ∀ i (hi : i < out.length),
            (out.get ⟨i, hi⟩).nonce = k.access_key.nonce + (start + i) + 1 := by
  intro txs
  induction txs with
  | nil =>
      intro start _
      exact ⟨[], rfl, rfl, fun i hi => absurd hi (Nat.not_lt_zero i)⟩
  | cons t ts ih =>
      intro start H
      have ht := H t (List.mem_cons_self t ts)
      obtain ⟨out, hout, hlen, hn⟩ :=
        ih (start + 1) (fun x hx => H x (List.mem_cons_of_mem t hx))
      have h1 : transformOne env start t = Except.ok
          { signerId := env.accountId
            publicKey := env.publicKeyFrom k.public_key
            receiverId := t.receiverId
            nonce := k.access_key.nonce + start + 1
            actions := t.actions.map env.createAction
            blockHash := env.baseDecode (env.block start) } := by
        unfold transformOne
        simp only [ht]
      refine ⟨{ signerId := env.accountId
                publicKey := env.publicKeyFrom k.public_key
                receiverId := t.receiverId
                nonce := k.access_key.nonce + start + 1
                actions := t.actions.map env.createAction
                blockHash := env.baseDecode (env.block start) } :: out, ?_, ?_, ?_⟩
      · unfold transformTransactionsAux
        rw [h1, hout]
      · simp [hlen]
      · intro i hi
        cases i with
        | zero => simp
        | succ j =>
            have hj : j < out.length := Nat.lt_of_succ_lt_succ (by simpa using hi)
            have hrec := hn j hj
            simp only [List.get_cons_succ]
            rw [hrec]
            omega

/-- Claim C1: when every access-key lookup in the batch resolves to the same
access key with nonce `n`, `transformTransactions` succeeds with one
assembled transaction per input in order and the i-th assembled transaction
carries nonce `n + i + 1`. -/
theorem transformTransactions_nonces (env : TxEnv) (txs : List IntendedTx)
    (k : AccessKeyView) (n : Nat)
    (H : ∀ t ∈ txs,
      env.accessKeyForTransaction t.receiverId (t.actions.map env.createAction)
        env.localKey = some k)
    (hn : k.access_key.nonce = n) :
    ∃ out, transformTransactions env txs = Except.ok out
      ∧ out.length = txs.length
      ∧ ∀ i (hi : i < out.length), (out.get ⟨i, hi⟩).nonce = n + i + 1 := by
  obtain ⟨out, hout, hlen, hnonce⟩ := transformTransactionsAux_uniform env k txs 0 H
  refine ⟨out, hout, hlen, fun i hi => ?_⟩
  rw [hnonce i hi, Nat.zero_add, hn]

/-- The access key shared by the whole concrete batch (base nonce 5). -/
def c1Key : AccessKeyView :=
  { public_key := "ed25519:AliceKey", access_key := { nonce := 5 } }

/-- Concrete assembler environment: every lookup resolves to `c1Key`. -/
def c1Env : TxEnv :=
  { accountId := "alice.near"
    networkId := "testnet"
    localKey := some "ed25519:AliceKey"
    createAction := fun r => { payload := r.payload }
    accessKeyForTransaction := fun _ _ _ => some c1Key
    block := fun _ => "BlockHashBase58"
    baseDecode := fun s => [s.length]
    publicKeyFrom := fun s => s }

/-- A batch of three intended transactions to receivers A, B, C. -/
def c1Txs : List IntendedTx :=
  [ { receiverId := "a.near", actions := [{ payload := "transfer" }], signerId := none }
  , { receiverId := "b.near", actions := [{ payload := "transfer" }], signerId := none }
  , { receiverId := "c.near", actions := [{ payload := "transfer" }], signerId := none } ]

/-- Witness for C1: the three-transaction batch with base nonce 5 assembles
with nonces 6, 7, 8 in order. -/
theorem transformTransactions_nonces_witness :
    ∃ out, transformTransactions c1Env c1Txs = Except.ok out
      ∧ out.length = c1Txs.length
      ∧ ∀ i (hi : i < out.length), (out.get ⟨i, hi⟩).nonce = 5 + i + 1 :=
  transformTransactions_nonces c1Env c1Txs c1Key 5 (by decide) rfl

/-- If the indexed assembler succeeds on a batch, then every transaction of
the batch individually assembled at its batch position succeeds. -/
theorem transformTransactionsAux_ok_each (env : TxEnv) :
    ∀ (txs : List IntendedTx) (start : Nat) (out : List AssembledTx),
      transformTransactionsAux env start txs = Except.ok out →
      ∀ i (hi : i < txs.length),
        ∃ a, transformOne env (start + i) (txs.get ⟨i, hi⟩) = Except.ok a := by
  intro txs
  induction txs with
  | nil =>
      intro start out _ i hi
      exact absurd hi (Nat.not_lt_zero i)
  | cons t ts ih =>
      intro start out h i hi
      unfold transformTransactionsAux at h
      cases h1 : transformOne env start t with
      | error e => rw [h1] at h; exact Except.noConfusion h
      | ok a =>
          rw [h1] at h
          cases h2 : transformTransactionsAux env (start + 1) ts with
          | error e => rw [h2] at h; exact Except.noConfusion h
          | ok as =>
              cases i with
              | zero => exact ⟨a, h1⟩
              | succ j =>
                  have hj : j < ts.length := Nat.lt_of_succ_lt_succ hi
                  obtain ⟨b, hb⟩ := ih (start + 1) as h2 j hj
                  refine ⟨b, ?_⟩
                  have harith : start + (j + 1) = start + 1 + j := by omega
                  rw [harith]
                  simpa using hb

/-- Claim C3: when the access-key lookup returns none for the i-th
transaction of a batch, assembling that transaction fails with an error
message identifying its receiver, and the batch never yields an assembled
output list. -/
theorem transformTransactions_missing_key (env : TxEnv) (txs : List IntendedTx)
    (i : Nat) (hi : i < txs.length)
    (h : env.accessKeyForTransaction (txs.get ⟨i, hi⟩).receiverId
          ((txs.get ⟨i, hi⟩).actions.map env.createAction) env.localKey = none) :
    transformOne env i (txs.get ⟨i, hi⟩) =
        Except.error ("Failed to find matching key for transaction sent to "
          ++ (txs.get ⟨i, hi⟩).receiverId)
      ∧ ∀ out, transformTransactions env txs ≠ Except.ok out := by
  have h1 : transformOne env i (txs.get ⟨i, hi⟩) =
      Except.error ("Failed to find matching key for transaction sent to "
        ++ (txs.get ⟨i, hi⟩).receiverId) := by
    unfold transformOne
    simp only [h]
  refine ⟨h1, fun out hout => ?_⟩
  obtain ⟨a, ha⟩ := transformTransactionsAux_ok_each env txs 0 out hout i hi
  rw [Nat.zero_add, h1] at ha
  exact Except.noConfusion ha

/-- The key held for receiver `good.near` only. -/
def c3Key : AccessKeyView :=
  { public_key := "ed25519:AliceKey", access_key := { nonce := 5 } }

/-- Concrete assembler environment: only `good.near` has a matching key. -/
def c3Env : TxEnv :=
  { accountId := "alice.near"
    networkId := "testnet"
    localKey := some "ed25519:AliceKey"
    createAction := fun r => { payload := r.payload }
    accessKeyForTransaction := fun receiverId _ _ =>
      if receiverId = "good.near" then some c3Key else none
    block := fun _ => "BlockHashBase58"
    baseDecode := fun s => [s.length]
    publicKeyFrom := fun s => s }

/-- A batch whose second transaction targets a receiver with no key. -/
def c3Txs : List IntendedTx :=
  [ { receiverId := "good.near", actions := [{ payload := "transfer" }], signerId := none }
  , { receiverId := "bad.near", actions := [{ payload := "transfer" }], signerId := none } ]

/-- Witness for C3: the keyless `bad.near` transaction at index 1 fails with
the receiver-identifying message and the batch produces no output list. -/
theorem transformTransactions_missing_key_witness :
    transformOne c3Env 1 (c3Txs.get ⟨1, by decide⟩) =
        Except.error ("Failed to find matching key for transaction sent to "
          ++ (c3Txs.get ⟨1, by decide⟩).receiverId)
      ∧ ∀ out, transformTransactions c3Env c3Txs ≠ Except.ok out :=
  transformTransactions_missing_key c3Env c3Txs 1 (by decide) (by decide)

/-- Claim C2: `signAndSendTransactions` runs its transactions sequentially
in array order.  If the first `k` transactions succeed and the k-th
(0-indexed) fails with error `e`, then exactly the first `k + 1`
transactions are dispatched (in input order), the remaining ones are never
attempted, and `e` propagates as the batch result with no partial-success
aggregation. -/
theorem signAndSendTransactions_sequential_abort (env : SendEnv) :
    ∀ (txs : List IntendedTx) (k : Nat) (hk : k < txs.length) (e : String),
      (∀ t ∈ txs.take k,
        (signAndSendTransaction env t.signerId t.receiverId t.actions).2 =
          Except.ok ()) →
      (signAndSendTransaction env (txs.get ⟨k, hk⟩).signerId
          (txs.get ⟨k, hk⟩).receiverId (txs.get ⟨k, hk⟩).actions).2 =
        Except.error e →
      signAndSendTransactions env txs =
        ((txs.take (k + 1)).map
            (fun t => (signAndSendTransaction env t.signerId t.receiverId t.actions).1)
        , Except.error e) := by
  intro txs
  induction txs with
  | nil =>
      intro k hk
      exact absurd hk (Nat.not_lt_zero k)
  | cons t ts ih =>
      intro k hk e Hok Herr
      cases k with
      | zero =>
          have h1 : (signAndSendTransaction env t.signerId t.receiverId t.actions).2 =
              Except.error e := Herr
          unfold signAndSendTransactions
          simp only [h1, List.take_succ_cons, List.take_zero, List.map_cons, List.map_nil]
      | succ j =>
          have hjk : j < ts.length := Nat.lt_of_succ_lt_succ hk
          have h0 : (signAndSendTransaction env t.signerId t.receiverId t.actions).2 =
              Except.ok () := by
            refine Hok t ?_
            rw [List.take_succ_cons]
            exact List.mem_cons_self t (ts.take j)
          have Hok₂ : ∀ x ∈ ts.take j,
              (signAndSendTransaction env x.signerId x.receiverId x.actions).2 =
                Except.ok () := by
            intro x hx
            refine Hok x ?_
            rw [List.take_succ_cons]
            exact List.mem_cons_of_mem t hx
          have Herr₂ : (signAndSendTransaction env (ts.get ⟨j, hjk⟩).signerId
              (ts.get ⟨j, hjk⟩).receiverId (ts.get ⟨j, hjk⟩).actions).2 =
              Except.error e := Herr
          have hrec := ih j hjk e Hok₂ Herr₂
          unfold signAndSendTransactions
          simp only [h0, hrec, List.take_succ_cons, List.map_cons]

/-- Concrete dispatch environment: each delegate encodes to the byte length
of its receiver, and the relay's network layer fails exactly on the body
`[8]` produced by the eight-character receiver `bad.near`. -/
def c2Env : SendEnv :=
  { createAction := fun r => { payload := r.payload }
    signedDelegate := fun p => { data := p.receiverId }
    encodeSignedDelegate := fun sd => [sd.data.length]
    relayerUrl := "https://relay.example"
    fetch := fun req =>
      if req.body = "[8]" then Except.error "relay network failure"
      else Except.ok { status := 200, body := "" } }

/-- A batch whose second transaction's relay call fails at the network
layer; a third transaction follows it. -/
def c2Txs : List IntendedTx :=
  [ { receiverId := "good.near", actions := [{ payload := "transfer" }], signerId := none }
  , { receiverId := "bad.near", actions := [{ payload := "transfer" }], signerId := none }
  , { receiverId := "later.near", actions := [{ payload := "transfer" }], signerId := none } ]

/-- Witness for C2: with the second relay call failing, only the first two
transactions are dispatched, the third is never attempted, and the error
propagates. -/
theorem signAndSendTransactions_sequential_abort_witness :
    signAndSendTransactions c2Env c2Txs =
      ((c2Txs.take 2).map
          (fun t => (signAndSendTransaction c2Env t.signerId t.receiverId t.actions).1)
      , Except.error "relay network failure") :=
  signAndSendTransactions_sequential_abort c2Env c2Txs 1 (by decide)
    "relay network failure" (by decide) (by decide)

end FastAuthWallet
